import Mathlib

/-!
Shallow embedding of `src/brpc/event_dispatcher_iouring.cpp` — the io_uring
based `EventDispatcher` of brpc.

Modelling conventions:
* The three `std::unordered_map` members of `IOUringContext` are modelled as
  functions into `Option` (keys are unique in an unordered_map, so the
  function model is faithful).  `fd_map : Int → Option Nat` (fd → token),
  `event_to_fd_map : Nat → Option Int` (token → fd),
  `poll_mask_map : Int → Option Nat` (fd → poll mask).
* Kernel interaction (whether `io_uring_get_sqe` yields an SQE, whether
  `io_uring_submit` succeeds) is an environment choice, modelled by a
  `SqeOracle` passed to each operation.
* Machine integers: fds and return codes are `Int`; masks, tokens and errno
  values are `Nat` (all values involved are small and non-negative, no
  overflow is reachable).
* Each public operation returns an `OpResult`: the C return value, the errno
  value the call itself assigned (`none` when the call does not touch errno),
  and the updated context.
-/

/-- Linux value of POLLIN (poll.h). -/
def POLLIN : Nat := 1

/-- Linux value of POLLOUT (poll.h). -/
def POLLOUT : Nat := 4

/-- Linux value of POLLERR (poll.h). -/
def POLLERR : Nat := 8

/-- Linux value of POLLHUP (poll.h). -/
def POLLHUP : Nat := 16

/-- Linux value of EPOLLIN (sys/epoll.h). -/
def EPOLLIN : Nat := 1

/-- Linux value of EPOLLOUT (sys/epoll.h). -/
def EPOLLOUT : Nat := 4

/-- Linux value of EPOLLERR (sys/epoll.h). -/
def EPOLLERR : Nat := 8

/-- Linux value of EPOLLHUP (sys/epoll.h). -/
def EPOLLHUP : Nat := 16

/-- Linux errno value EINVAL. -/
def EINVAL : Nat := 22

/-- Linux errno value ENOMEM. -/
def ENOMEM : Nat := 12

/-- State of an `IOUringContext` (event_dispatcher_iouring.cpp lines 53-71):
the three tracking maps and the pending-submission counter. -/
structure Ctx where
  fd_map : Int → Option Nat
  event_to_fd_map : Nat → Option Int
  poll_mask_map : Int → Option Nat
  pending_submissions : Nat

/-- A freshly constructed `IOUringContext`: empty maps, zero pending. -/
def Ctx.init : Ctx :=
  ⟨fun _ => none, fun _ => none, fun _ => none, 0⟩

/-- Point update of an fd-keyed map. -/
def updI (m : Int → Option Nat) (k : Int) (v : Option Nat) : Int → Option Nat :=
  fun x => if x = k then v else m x

/-- Point update of a token-keyed map. -/
def updN (m : Nat → Option Int) (k : Nat) (v : Option Int) : Nat → Option Int :=
  fun x => if x = k then v else m x

/-- Environment oracle for one call of `get_sqe_with_retry`: whether the first
`io_uring_get_sqe` yields an SQE, whether the flushing `io_uring_submit`
succeeds (returns ≥ 0), and whether the retried `io_uring_get_sqe` yields
an SQE. -/
structure SqeOracle where
  first : Bool
  submitOk : Bool
  retry : Bool

/-- Result of `get_sqe_with_retry`: whether an SQE was obtained, and the
value of `pending_submissions` afterwards. -/
structure SqeResult where
  ok : Bool
  pending : Nat

/-- Embedding of `get_sqe_with_retry` (lines 185-200): on first-try success
return the SQE; otherwise submit pending operations — if the submit fails
return NULL at once; if it succeeds, zero the pending counter and try
`io_uring_get_sqe` once more. -/
def get_sqe_with_retry (o : SqeOracle) (pending : Nat) : SqeResult :=
  if o.first then ⟨true, pending⟩
  else if o.submitOk then ⟨o.retry, 0⟩
  else ⟨false, pending⟩

/-- Embedding of `maybe_submit` (lines 203-215): submit when pending > 0 and
(force or pending ≥ BATCH_THRESHOLD = 8); on submit success the counter is
zeroed, on failure it is kept. Returns the new pending counter. -/
def maybe_submit (submitOk : Bool) (force : Bool) (pending : Nat) : Nat :=
  if 0 < pending ∧ (force = true ∨ 8 ≤ pending) then
    if submitOk then 0 else pending
  else pending

/-- Environment oracle for one public operation: the `get_sqe_with_retry`
oracle and the outcome of the trailing `maybe_submit`'s `io_uring_submit`. -/
structure OpOracle where
  sqe : SqeOracle
  submit : Bool

/-- Result of a public operation: C return value, errno assigned by the call
(`none` when untouched), and the context afterwards. -/
structure OpResult where
  ret : Int
  errno : Option Nat
  ctx : Ctx

/-- Embedding of `EventDispatcher::RegisterEvent` (lines 217-256).  `dfd` is
the `_event_dispatcher_fd` member (negative means disabled). -/
def RegisterEvent (dfd : Int) (o : OpOracle) (ctx : Ctx)
    (event_data_id : Nat) (fd : Int) (pollin : Bool) : OpResult :=
  if dfd < 0 then ⟨-1, some EINVAL, ctx⟩
  else
    let r := get_sqe_with_retry o.sqe ctx.pending_submissions
    if r.ok = false then
      ⟨-1, some ENOMEM, { ctx with pending_submissions := r.pending }⟩
    else
      let poll_mask := if pollin then POLLOUT ||| POLLIN else POLLOUT
      ⟨0, none,
        { fd_map := updI ctx.fd_map fd (some event_data_id)
          event_to_fd_map := updN ctx.event_to_fd_map event_data_id (some fd)
          poll_mask_map := updI ctx.poll_mask_map fd (some poll_mask)
          pending_submissions := maybe_submit o.submit false (r.pending + 1) }⟩

/-- Embedding of `EventDispatcher::UnregisterEvent` (lines 258-304): with
`pollin` the poll is re-armed read-only and only `poll_mask_map` is
rewritten; without `pollin` a poll-remove is enqueued and all three map
entries are erased. -/
def UnregisterEvent (dfd : Int) (o : OpOracle) (ctx : Ctx)
    (event_data_id : Nat) (fd : Int) (pollin : Bool) : OpResult :=
  if dfd < 0 then ⟨-1, some EINVAL, ctx⟩
  else if pollin then
    let r := get_sqe_with_retry o.sqe ctx.pending_submissions
    if r.ok = false then
      ⟨-1, some ENOMEM, { ctx with pending_submissions := r.pending }⟩
    else
      ⟨0, none,
        { ctx with
          poll_mask_map := updI ctx.poll_mask_map fd (some POLLIN)
          pending_submissions := maybe_submit o.submit false (r.pending + 1) }⟩
  else
    let r := get_sqe_with_retry o.sqe ctx.pending_submissions
    if r.ok = false then
      ⟨-1, some ENOMEM, { ctx with pending_submissions := r.pending }⟩
    else
      ⟨0, none,
        { fd_map := updI ctx.fd_map fd none
          event_to_fd_map := updN ctx.event_to_fd_map event_data_id none
          poll_mask_map := updI ctx.poll_mask_map fd none
          pending_submissions := maybe_submit o.submit false (r.pending + 1) }⟩

/-- Embedding of `EventDispatcher::AddConsumer` (lines 306-334): arms a
POLLIN-only poll and records the three map entries. -/
def AddConsumer (dfd : Int) (o : OpOracle) (ctx : Ctx)
    (event_data_id : Nat) (fd : Int) : OpResult :=
  if dfd < 0 then ⟨-1, some EINVAL, ctx⟩
  else
    let r := get_sqe_with_retry o.sqe ctx.pending_submissions
    if r.ok = false then
      ⟨-1, some ENOMEM, { ctx with pending_submissions := r.pending }⟩
    else
      ⟨0, none,
        { fd_map := updI ctx.fd_map fd (some event_data_id)
          event_to_fd_map := updN ctx.event_to_fd_map event_data_id (some fd)
          poll_mask_map := updI ctx.poll_mask_map fd (some POLLIN)
          pending_submissions := maybe_submit o.submit false (r.pending + 1) }⟩

/-- Embedding of `EventDispatcher::RemoveConsumer` (lines 336-370): rejects
negative fd or disabled dispatcher with a bare -1 (errno untouched); an
untracked fd returns success unchanged; otherwise a poll-remove is enqueued
and the three entries erased — unless no SQE can be obtained, in which case
-1/ENOMEM is returned with the maps untouched. -/
def RemoveConsumer (dfd : Int) (o : OpOracle) (ctx : Ctx) (fd : Int) : OpResult :=
  if fd < 0 ∨ dfd < 0 then ⟨-1, none, ctx⟩
  else
    match ctx.fd_map fd with
    | none => ⟨0, none, ctx⟩
    | some event_data_id =>
      let r := get_sqe_with_retry o.sqe ctx.pending_submissions
      if r.ok = false then
        ⟨-1, some ENOMEM, { ctx with pending_submissions := r.pending }⟩
      else
        ⟨0, none,
          { fd_map := updI ctx.fd_map fd none
            event_to_fd_map := updN ctx.event_to_fd_map event_data_id none
            poll_mask_map := updI ctx.poll_mask_map fd none
            pending_submissions := maybe_submit o.submit false (r.pending + 1) }⟩

/-- An oracle on which every kernel interaction succeeds. -/
def okOracle : OpOracle := ⟨⟨true, true, true⟩, true⟩

/-- An oracle on which `io_uring_get_sqe` fails persistently (submit during
the retry succeeds, but the retried get still yields nothing). -/
def noSqeOracle : OpOracle := ⟨⟨false, true, false⟩, true⟩

example : (RegisterEvent 0 okOracle Ctx.init 1 5 true).ret = 0 := by decide
example : ((RegisterEvent 0 okOracle Ctx.init 1 5 true).ctx).fd_map 5 = some 1 := by decide
example : (RemoveConsumer 0 okOracle Ctx.init 3).ret = 0 := by decide
example : (RemoveConsumer 0 noSqeOracle
    (AddConsumer 0 okOracle Ctx.init 1 0).ctx 0).ret = -1 := by decide

/-- Observable effects of processing one non-wakeup CQE in
`EventDispatcher::Run`: the input-callback invocation, the output-callback
invocation, and the preparation of a re-arm poll-add SQE, in program order. -/
inductive EvAction where
  | input (token : Nat) (events : Nat)
  | output (token : Nat) (events : Nat)
  | rearm (fd : Int) (token : Nat) (mask : Nat)
deriving DecidableEq

/-- Embedding of the poll-to-epoll translation in `EventDispatcher::Run`
(lines 490-502). -/
def poll_to_epoll (revents : Nat) : Nat :=
  (if revents &&& POLLIN ≠ 0 then EPOLLIN else 0) |||
  (if revents &&& POLLOUT ≠ 0 then EPOLLOUT else 0) |||
  (if revents &&& POLLERR ≠ 0 then EPOLLERR else 0) |||
  (if revents &&& POLLHUP ≠ 0 then EPOLLHUP else 0)

/-- Embedding of `find_fd_by_event_data_id` (lines 388-394): look the token
up in the reverse map, returning -1 when absent. -/
def find_fd_by_event_data_id (ctx : Ctx) (event_data_id : Nat) : Int :=
  match ctx.event_to_fd_map event_data_id with
  | some fd => fd
  | none => -1

/-- Embedding of `rearm_poll` (lines 378-385): acquire an SQE (with retry);
only if one is obtained, prepare the poll-add and bump the pending counter.
Returns the prepared re-arm action (if any) and the updated context. -/
def rearm_poll (o : SqeOracle) (ctx : Ctx) (fd : Int) (event_data_id : Nat)
    (poll_mask : Nat) : List EvAction × Ctx :=
  let r := get_sqe_with_retry o ctx.pending_submissions
  if r.ok then
    ([EvAction.rearm fd event_data_id poll_mask],
     { ctx with pending_submissions := r.pending + 1 })
  else
    ([], { ctx with pending_submissions := r.pending })

/-- Embedding of the per-CQE processing of a non-wakeup completion in
`EventDispatcher::Run` (lines 474-526): a negative result is discarded;
otherwise the result's low bits are translated, callbacks are dispatched
(input before output), and the poll is re-armed when the fd is found, no
hangup was delivered, the mask is still tracked, and an SQE is available. -/
def processCqe (o : SqeOracle) (ctx : Ctx) (token : Nat) (res : Int) :
    List EvAction × Ctx :=
  if res < 0 then ([], ctx)
  else
    let events := poll_to_epoll res.toNat
    let fd := find_fd_by_event_data_id ctx token
    let pre : List EvAction :=
      (if events &&& (EPOLLIN ||| EPOLLERR ||| EPOLLHUP) ≠ 0 then
        [EvAction.input token events] else []) ++
      (if events &&& (EPOLLOUT ||| EPOLLERR ||| EPOLLHUP) ≠ 0 then
        [EvAction.output token events] else [])
    if 0 ≤ fd ∧ events &&& EPOLLHUP = 0 then
      match ctx.poll_mask_map fd with
      | some poll_mask =>
        let r := rearm_poll o ctx fd token poll_mask
        (pre ++ r.1, r.2)
      | none => (pre, ctx)
    else (pre, ctx)

/-- One registration-API call together with its environment oracle, for
reasoning about arbitrary call sequences. -/
inductive Op where
  | register (o : OpOracle) (t : Nat) (fd : Int) (pollin : Bool)
  | unregister (o : OpOracle) (t : Nat) (fd : Int) (pollin : Bool)
  | addConsumer (o : OpOracle) (t : Nat) (fd : Int)
  | removeConsumer (o : OpOracle) (fd : Int)

/-- Context effect of one registration-API call. -/
def stepOp (dfd : Int) (ctx : Ctx) : Op → Ctx
  | .register o t fd p => (RegisterEvent dfd o ctx t fd p).ctx
  | .unregister o t fd p => (UnregisterEvent dfd o ctx t fd p).ctx
  | .addConsumer o t fd => (AddConsumer dfd o ctx t fd).ctx
  | .removeConsumer o fd => (RemoveConsumer dfd o ctx fd).ctx

/-- Context after a sequence of registration-API calls. -/
def runOps (dfd : Int) (ctx : Ctx) : List Op → Ctx
  | [] => ctx
  | op :: rest => runOps dfd (stepOp dfd ctx op) rest

/-- Token discipline for one call in a given state: a token passed to
`RegisterEvent`, `AddConsumer` or an erasing `UnregisterEvent` must not be
currently bound in `fd_map` to a different fd.  `RemoveConsumer` and the
mask-downgrading `UnregisterEvent` need no condition. -/
def TokenOKFor (ctx : Ctx) : Op → Prop
  | .register _ t fd _ => ∀ fd2, ctx.fd_map fd2 = some t → fd2 = fd
  | .unregister _ t fd p =>
      p = true ∨ ∀ fd2, ctx.fd_map fd2 = some t → fd2 = fd
  | .addConsumer _ t fd => ∀ fd2, ctx.fd_map fd2 = some t → fd2 = fd
  | .removeConsumer _ _ => True

/-- Token discipline along a whole call sequence. -/
def OkTrace (dfd : Int) (ctx : Ctx) : List Op → Prop
  | [] => True
  | op :: rest => TokenOKFor ctx op ∧ OkTrace dfd (stepOp dfd ctx op) rest

/-- Lockstep consistency of the three maps: every fd tracked in `fd_map` has
a reverse entry for its current token and a non-zero poll mask. -/
def MapsConsistent (ctx : Ctx) : Prop :=
  ∀ fd t, ctx.fd_map fd = some t →
    ctx.event_to_fd_map t = some fd ∧
    ∃ m, ctx.poll_mask_map fd = some m ∧ m ≠ 0

example : (processCqe ⟨true, true, true⟩
    (RegisterEvent 0 okOracle Ctx.init 7 3 true).ctx 7 1).1 =
    [EvAction.input 7 1, EvAction.rearm 3 7 5] := by decide
example : (processCqe ⟨true, true, true⟩
    (RegisterEvent 0 okOracle Ctx.init 7 3 true).ctx 7 (POLLIN ||| POLLHUP)).1 =
    [EvAction.input 7 17, EvAction.output 7 17] := by decide

/-- An oracle whose flush submit also fails: `get_sqe_with_retry` gives up
without retrying, leaving the pending counter untouched. -/
def failSubmitOracle : OpOracle := ⟨⟨false, false, true⟩, true⟩

/-- A context with three pending submissions and empty maps. -/
def ctxPending3 : Ctx := { Ctx.init with pending_submissions := 3 }

/-- C1: after `RegisterEvent(t, fd, want_read)` returns success on an enabled
dispatcher, `fd_map[fd] = t`, `event_to_fd_map[t] = fd`, and
`poll_mask_map[fd]` contains the writable bit and contains the readable bit
iff `want_read`. -/
theorem registerEvent_success_maps
    (dfd : Int) (o : OpOracle) (ctx : Ctx) (t : Nat) (fd : Int) (pollin : Bool)
    (hd : 0 ≤ dfd) (hfd : 0 ≤ fd)
    (hret : (RegisterEvent dfd o ctx t fd pollin).ret = 0) :
    ((RegisterEvent dfd o ctx t fd pollin).ctx).fd_map fd = some t ∧
    ((RegisterEvent dfd o ctx t fd pollin).ctx).event_to_fd_map t = some fd ∧
    ∃ m, ((RegisterEvent dfd o ctx t fd pollin).ctx).poll_mask_map fd = some m ∧
      m &&& POLLOUT ≠ 0 ∧ (m &&& POLLIN ≠ 0 ↔ pollin = true) := by
  have hnd : ¬ dfd < 0 := by omega
  by_cases hok : (get_sqe_with_retry o.sqe ctx.pending_submissions).ok = false
  · exfalso
    simp [RegisterEvent, hnd, hok] at hret
  · cases pollin <;>
      simp [RegisterEvent, hnd, hok, updI, updN, POLLIN, POLLOUT]

theorem registerEvent_success_maps_witness :
    ((RegisterEvent 0 okOracle Ctx.init 1 5 true).ctx).fd_map 5 = some 1 ∧
    ((RegisterEvent 0 okOracle Ctx.init 1 5 true).ctx).event_to_fd_map 1 = some 5 ∧
    ∃ m, ((RegisterEvent 0 okOracle Ctx.init 1 5 true).ctx).poll_mask_map 5 = some m ∧
      m &&& POLLOUT ≠ 0 ∧ (m &&& POLLIN ≠ 0 ↔ true = true) :=
  registerEvent_success_maps 0 okOracle Ctx.init 1 5 true (by decide) (by decide)
    (by decide)

/-- C5 (amended): `RemoveConsumer` never surfaces a batched-submit failure —
whenever an SQE is obtainable it returns success regardless of the
`maybe_submit` outcome, and on untracked fds it returns success without
touching the ring. -/
theorem removeConsumer_submit_not_surfaced
    (dfd : Int) (o : OpOracle) (ctx : Ctx) (fd : Int)
    (hd : 0 ≤ dfd) (hfd : 0 ≤ fd)
    (hsqe : (get_sqe_with_retry o.sqe ctx.pending_submissions).ok = true) :
    (RemoveConsumer dfd o ctx fd).ret = 0 := by
  have hng : ¬ (fd < 0 ∨ dfd < 0) := by omega
  cases hm : ctx.fd_map fd <;> simp [RemoveConsumer, hng, hm, hsqe]

theorem removeConsumer_submit_not_surfaced_witness :
    (RemoveConsumer 0 ⟨⟨true, false, false⟩, false⟩
      (AddConsumer 0 okOracle Ctx.init 1 0).ctx 0).ret = 0 :=
  removeConsumer_submit_not_surfaced 0 ⟨⟨true, false, false⟩, false⟩
    (AddConsumer 0 okOracle Ctx.init 1 0).ctx 0 (by decide) (by decide) (by decide)

/-- C5 counterexample: when SQE acquisition fails persistently on a tracked
fd, `RemoveConsumer` returns -1 with errno ENOMEM — the failure IS surfaced
to the caller, contradicting the claim. -/
theorem removeConsumer_enomem_cex :
    (RemoveConsumer 0 noSqeOracle (AddConsumer 0 okOracle Ctx.init 1 0).ctx 0).ret
      = -1 ∧
    (RemoveConsumer 0 noSqeOracle (AddConsumer 0 okOracle Ctx.init 1 0).ctx 0).errno
      = some ENOMEM := by
  decide

/-- C7 (amended): on a disabled dispatcher (negative ring fd) each operation
early-returns -1 without modifying any dispatcher state; `RegisterEvent`,
`UnregisterEvent` and `AddConsumer` set errno to EINVAL, while
`RemoveConsumer` returns -1 with errno untouched. -/
theorem disabled_ops_early_return
    (dfd : Int) (o : OpOracle) (ctx : Ctx) (t : Nat) (fd : Int) (pollin : Bool)
    (hd : dfd < 0) :
    RegisterEvent dfd o ctx t fd pollin = ⟨-1, some EINVAL, ctx⟩ ∧
    UnregisterEvent dfd o ctx t fd pollin = ⟨-1, some EINVAL, ctx⟩ ∧
    AddConsumer dfd o ctx t fd = ⟨-1, some EINVAL, ctx⟩ ∧
    RemoveConsumer dfd o ctx fd = ⟨-1, none, ctx⟩ := by
  refine ⟨?_, ?_, ?_, ?_⟩ <;>
    simp [RegisterEvent, UnregisterEvent, AddConsumer, RemoveConsumer, hd]

theorem disabled_ops_early_return_witness :
    RegisterEvent (-1) okOracle Ctx.init 1 0 true = ⟨-1, some EINVAL, Ctx.init⟩ ∧
    UnregisterEvent (-1) okOracle Ctx.init 1 0 true = ⟨-1, some EINVAL, Ctx.init⟩ ∧
    AddConsumer (-1) okOracle Ctx.init 1 0 = ⟨-1, some EINVAL, Ctx.init⟩ ∧
    RemoveConsumer (-1) okOracle Ctx.init 0 = ⟨-1, none, Ctx.init⟩ :=
  disabled_ops_early_return (-1) okOracle Ctx.init 1 0 true (by decide)

/-- C7 counterexample: `RemoveConsumer` on a disabled dispatcher returns -1
but does NOT set errno to EINVAL (lines 337-339 return a bare -1), so the
claim that all four operations fail with errno EINVAL is false. -/
theorem disabled_removeConsumer_errno_cex :
    (RemoveConsumer (-1) okOracle Ctx.init 3).ret = -1 ∧
    (RemoveConsumer (-1) okOracle Ctx.init 3).errno = none ∧
    (RemoveConsumer (-1) okOracle Ctx.init 3).errno ≠ some EINVAL := by
  decide

/-- C9: `RemoveConsumer` on an untracked non-negative fd of an enabled
dispatcher returns success and leaves the whole context unchanged, so a
second call in a row also succeeds. -/
theorem removeConsumer_untracked_idempotent
    (dfd : Int) (o o2 : OpOracle) (ctx : Ctx) (fd : Int)
    (hd : 0 ≤ dfd) (hfd : 0 ≤ fd) (h : ctx.fd_map fd = none) :
    RemoveConsumer dfd o ctx fd = ⟨0, none, ctx⟩ ∧
    (RemoveConsumer dfd o2 (RemoveConsumer dfd o ctx fd).ctx fd).ret = 0 := by
  have hng : ¬ (fd < 0 ∨ dfd < 0) := by omega
  have h1 : RemoveConsumer dfd o ctx fd = ⟨0, none, ctx⟩ := by
    simp [RemoveConsumer, hng, h]
  refine ⟨h1, ?_⟩
  rw [h1]
  simp [RemoveConsumer, hng, h]

theorem removeConsumer_untracked_idempotent_witness :
    RemoveConsumer 0 okOracle Ctx.init 4 = ⟨0, none, Ctx.init⟩ ∧
    (RemoveConsumer 0 noSqeOracle (RemoveConsumer 0 okOracle Ctx.init 4).ctx 4).ret
      = 0 :=
  removeConsumer_untracked_idempotent 0 okOracle noSqeOracle Ctx.init 4
    (by decide) (by decide) (by decide)

/-- Helper: for a non-negative result, the action list of `processCqe` is the
callback part (input then output, each present iff its event test fires)
followed by a tail consisting only of re-arm actions for the same token. -/
lemma processCqe_shape (o : SqeOracle) (ctx : Ctx) (token : Nat) (res : Int)
    (hres : 0 ≤ res) :
    ∃ tail, (processCqe o ctx token res).1 =
      ((if poll_to_epoll res.toNat &&& (EPOLLIN ||| EPOLLERR ||| EPOLLHUP) ≠ 0 then
          [EvAction.input token (poll_to_epoll res.toNat)] else []) ++
        (if poll_to_epoll res.toNat &&& (EPOLLOUT ||| EPOLLERR ||| EPOLLHUP) ≠ 0 then
          [EvAction.output token (poll_to_epoll res.toNat)] else []) ++ tail) ∧
      ∀ a ∈ tail, ∃ f m, a = EvAction.rearm f token m := by
  have hnlt : ¬ res < 0 := not_lt.mpr hres
  by_cases hc : 0 ≤ find_fd_by_event_data_id ctx token ∧
      poll_to_epoll res.toNat &&& EPOLLHUP = 0
  · cases hm : ctx.poll_mask_map (find_fd_by_event_data_id ctx token) with
    | none =>
      refine ⟨[], ?_, ?_⟩
      · simp [processCqe, hnlt, hc, hm]
      · simp
    | some mask =>
      by_cases hok : (get_sqe_with_retry o ctx.pending_submissions).ok = true
      · refine ⟨[EvAction.rearm (find_fd_by_event_data_id ctx token) token mask],
          ?_, ?_⟩
        · simp [processCqe, rearm_poll, hnlt, hc, hm, hok]
        · simp
      · refine ⟨[], ?_, ?_⟩
        · simp [processCqe, rearm_poll, hnlt, hc, hm, hok]
        · simp
  · refine ⟨[], ?_, ?_⟩
    · simp [processCqe, hnlt, hc]
    · simp

/-- C2: for a CQE with non-zero token and non-negative result, the input
callback is invoked iff the translated events meet
{readable, error, hangup}, the output callback iff they meet
{writable, error, hangup}, and when both fire the input callback comes
first. -/
theorem cqe_callbacks (o : SqeOracle) (ctx : Ctx) (token : Nat) (res : Int)
    (htok : token ≠ 0) (hres : 0 ≤ res) :
    (EvAction.input token (poll_to_epoll res.toNat) ∈ (processCqe o ctx token res).1 ↔
      poll_to_epoll res.toNat &&& (EPOLLIN ||| EPOLLERR ||| EPOLLHUP) ≠ 0) ∧
    (EvAction.output token (poll_to_epoll res.toNat) ∈ (processCqe o ctx token res).1 ↔
      poll_to_epoll res.toNat &&& (EPOLLOUT ||| EPOLLERR ||| EPOLLHUP) ≠ 0) ∧
    (poll_to_epoll res.toNat &&& (EPOLLIN ||| EPOLLERR ||| EPOLLHUP) ≠ 0 →
      poll_to_epoll res.toNat &&& (EPOLLOUT ||| EPOLLERR ||| EPOLLHUP) ≠ 0 →
      ∃ rest, (processCqe o ctx token res).1 =
        EvAction.input token (poll_to_epoll res.toNat) ::
          EvAction.output token (poll_to_epoll res.toNat) :: rest) := by
  obtain ⟨tail, hsh, htail⟩ := processCqe_shape o ctx token res hres
  have hnotin : EvAction.input token (poll_to_epoll res.toNat) ∉ tail := by
    intro ha
    obtain ⟨f, m, hfm⟩ := htail _ ha
    exact EvAction.noConfusion hfm
  have hnotout : EvAction.output token (poll_to_epoll res.toNat) ∉ tail := by
    intro ha
    obtain ⟨f, m, hfm⟩ := htail _ ha
    exact EvAction.noConfusion hfm
  by_cases hin : poll_to_epoll res.toNat &&& (EPOLLIN ||| EPOLLERR ||| EPOLLHUP) ≠ 0 <;>
    by_cases hout : poll_to_epoll res.toNat &&& (EPOLLOUT ||| EPOLLERR ||| EPOLLHUP) ≠ 0 <;>
      refine ⟨?_, ?_, ?_⟩ <;>
        simp [hsh, hin, hout, hnotin, hnotout]

theorem cqe_callbacks_witness :
    EvAction.input 7 (poll_to_epoll (Int.toNat 5)) ∈
      (processCqe ⟨true, true, true⟩
        (RegisterEvent 0 okOracle Ctx.init 7 3 true).ctx 7 5).1 ∧
    EvAction.output 7 (poll_to_epoll (Int.toNat 5)) ∈
      (processCqe ⟨true, true, true⟩
        (RegisterEvent 0 okOracle Ctx.init 7 3 true).ctx 7 5).1 :=
  ⟨(cqe_callbacks ⟨true, true, true⟩
      (RegisterEvent 0 okOracle Ctx.init 7 3 true).ctx 7 5
      (by decide) (by decide)).1.mpr (by decide),
   (cqe_callbacks ⟨true, true, true⟩
      (RegisterEvent 0 okOracle Ctx.init 7 3 true).ctx 7 5
      (by decide) (by decide)).2.1.mpr (by decide)⟩

/-- The re-arm part of `processCqe`'s action list, spelled out: present only
when the reverse lookup found a non-negative fd, the completion carried no
hangup, the fd still has a tracked mask, and an SQE could be acquired. -/
def rearmActs (o : SqeOracle) (ctx : Ctx) (token : Nat) (res : Int) :
    List EvAction :=
  if 0 ≤ find_fd_by_event_data_id ctx token ∧
      poll_to_epoll res.toNat &&& EPOLLHUP = 0 then
    match ctx.poll_mask_map (find_fd_by_event_data_id ctx token) with
    | some poll_mask =>
      (rearm_poll o ctx (find_fd_by_event_data_id ctx token) token poll_mask).1
    | none => []
  else []

/-- Helper: the action list of `processCqe` for a non-negative result is the
callback part followed by `rearmActs`. -/
lemma processCqe_fst (o : SqeOracle) (ctx : Ctx) (token : Nat) (res : Int)
    (hres : 0 ≤ res) :
    (processCqe o ctx token res).1 =
      (if poll_to_epoll res.toNat &&& (EPOLLIN ||| EPOLLERR ||| EPOLLHUP) ≠ 0 then
        [EvAction.input token (poll_to_epoll res.toNat)] else []) ++
      (if poll_to_epoll res.toNat &&& (EPOLLOUT ||| EPOLLERR ||| EPOLLHUP) ≠ 0 then
        [EvAction.output token (poll_to_epoll res.toNat)] else []) ++
      rearmActs o ctx token res := by
  have hnlt : ¬ res < 0 := not_lt.mpr hres
  by_cases hc : 0 ≤ find_fd_by_event_data_id ctx token ∧
      poll_to_epoll res.toNat &&& EPOLLHUP = 0
  · cases hm : ctx.poll_mask_map (find_fd_by_event_data_id ctx token) <;>
      simp [processCqe, rearmActs, hnlt, hc, hm]
  · simp [processCqe, rearmActs, hnlt, hc]

/-- Helper: exact membership condition for a re-arm action. -/
lemma mem_rearmActs (o : SqeOracle) (ctx : Ctx) (token : Nat) (res : Int)
    (f : Int) (m : Nat) :
    EvAction.rearm f token m ∈ rearmActs o ctx token res ↔
      ctx.event_to_fd_map token = some f ∧ 0 ≤ f ∧
      poll_to_epoll res.toNat &&& EPOLLHUP = 0 ∧
      ctx.poll_mask_map f = some m ∧
      (get_sqe_with_retry o ctx.pending_submissions).ok = true := by
  cases hev : ctx.event_to_fd_map token with
  | none =>
    have hfd : find_fd_by_event_data_id ctx token = -1 := by
      simp [find_fd_by_event_data_id, hev]
    simp [rearmActs, hfd, (by decide : ¬ (0:Int) ≤ -1)]
  | some fd =>
    have hfd : find_fd_by_event_data_id ctx token = fd := by
      simp [find_fd_by_event_data_id, hev]
    constructor
    · intro hmem
      simp only [rearmActs, hfd] at hmem
      by_cases hc : (0:Int) ≤ fd ∧ poll_to_epoll res.toNat &&& EPOLLHUP = 0
      · rw [if_pos hc] at hmem
        cases hm : ctx.poll_mask_map fd with
        | none =>
          rw [hm] at hmem
          exact absurd hmem (List.not_mem_nil _)
        | some mask =>
          rw [hm] at hmem
          simp only [rearm_poll] at hmem
          by_cases hok : (get_sqe_with_retry o ctx.pending_submissions).ok = true
          · rw [if_pos hok] at hmem
            simp only [List.mem_singleton, EvAction.rearm.injEq] at hmem
            obtain ⟨rfl, -, rfl⟩ := hmem
            exact ⟨rfl, hc.1, hc.2, hm, hok⟩
          · rw [if_neg hok] at hmem
            exact absurd hmem (List.not_mem_nil _)
      · rw [if_neg hc] at hmem
        exact absurd hmem (List.not_mem_nil _)
    · rintro ⟨hf, h0, hhup, hm2, hok2⟩
      obtain rfl : fd = f := by injection hf
      simp only [rearmActs, hfd]
      rw [if_pos (And.intro h0 hhup), hm2]
      simp only [rearm_poll]
      rw [if_pos hok2]
      exact List.mem_singleton.mpr rfl

/-- C3 (amended): a CQE with negative result produces no actions at all; for
a non-negative result, a re-arm poll-add with mask `poll_mask_map[fd]` and
the same token is prepared iff the token maps in `event_to_fd_map` to a
non-negative fd, that fd still has a tracked poll mask, the translated
events carry no hangup bit, and an SQE could be acquired. -/
theorem cqe_rearm_characterization (o : SqeOracle) (ctx : Ctx) (token : Nat)
    (res : Int) (f : Int) (m : Nat) :
    (res < 0 → (processCqe o ctx token res).1 = []) ∧
    (0 ≤ res →
      (EvAction.rearm f token m ∈ (processCqe o ctx token res).1 ↔
        ctx.event_to_fd_map token = some f ∧ 0 ≤ f ∧
        poll_to_epoll res.toNat &&& EPOLLHUP = 0 ∧
        ctx.poll_mask_map f = some m ∧
        (get_sqe_with_retry o ctx.pending_submissions).ok = true)) := by
  constructor
  · intro hneg
    simp [processCqe, hneg]
  · intro hres
    rw [processCqe_fst o ctx token res hres]
    constructor
    · intro hmem
      rcases List.mem_append.mp hmem with h | h
      · exfalso
        rcases List.mem_append.mp h with h2 | h2 <;> revert h2 <;> split <;> simp
      · exact (mem_rearmActs o ctx token res f m).mp h
    · intro hr
      exact List.mem_append.mpr
        (Or.inr ((mem_rearmActs o ctx token res f m).mpr hr))

theorem cqe_rearm_characterization_witness :
    EvAction.rearm 3 7 5 ∈ (processCqe ⟨true, true, true⟩
      (RegisterEvent 0 okOracle Ctx.init 7 3 true).ctx 7 1).1 :=
  ((cqe_rearm_characterization ⟨true, true, true⟩
      (RegisterEvent 0 okOracle Ctx.init 7 3 true).ctx 7 1 3 5).2
    (by decide)).mpr (by decide)

/-- C3 counterexample: in a reachable state (register token 1 on fd 5, then
a full unregister with a different token erases `fd_map`/`poll_mask_map`
for fd 5 but leaves the reverse entry 1 → 5) a readable completion for
token 1 is processed with the token FOUND in `event_to_fd_map` and no
hangup bit, yet no re-arm is prepared — the action list is only the input
callback. -/
theorem cqe_rearm_cex :
    ((UnregisterEvent 0 okOracle
        (RegisterEvent 0 okOracle Ctx.init 1 5 true).ctx 2 5 false).ctx).event_to_fd_map 1
      = some 5 ∧
    poll_to_epoll (Int.toNat 1) &&& EPOLLHUP = 0 ∧
    (processCqe ⟨true, true, true⟩
      (UnregisterEvent 0 okOracle
        (RegisterEvent 0 okOracle Ctx.init 1 5 true).ctx 2 5 false).ctx 1 1).1
      = [EvAction.input 1 1] := by
  decide

/-- Helper: inserting a token/fd/mask triple preserves map consistency when
the token is not bound to a different fd and the mask is non-zero. -/
lemma mapsConsistent_insert (ctx : Ctx) (t : Nat) (fd : Int) (pm : Nat) (p : Nat)
    (hC : MapsConsistent ctx)
    (hT : ∀ fd2, ctx.fd_map fd2 = some t → fd2 = fd) (hpm : pm ≠ 0) :
    MapsConsistent ⟨updI ctx.fd_map fd (some t),
      updN ctx.event_to_fd_map t (some fd),
      updI ctx.poll_mask_map fd (some pm), p⟩ := by
  intro fd2 t2 h2
  simp only [updI] at h2
  by_cases hx : fd2 = fd
  · rw [if_pos hx] at h2
    obtain rfl : t = t2 := by injection h2
    subst hx
    refine ⟨?_, pm, ?_, hpm⟩
    · simp [updN]
    · simp [updI]
  · rw [if_neg hx] at h2
    have htne : t2 ≠ t := by
      intro he
      exact hx (hT fd2 (he ▸ h2))
    obtain ⟨hev, m, hm, hm0⟩ := hC fd2 t2 h2
    refine ⟨?_, m, ?_, hm0⟩
    · simp [updN, htne, hev]
    · simp [updI, hx, hm]

/-- Helper: erasing a token/fd pair from all three maps preserves map
consistency when the token is not bound to a different fd. -/
lemma mapsConsistent_erase (ctx : Ctx) (t : Nat) (fd : Int) (p : Nat)
    (hC : MapsConsistent ctx)
    (hT : ∀ fd2, ctx.fd_map fd2 = some t → fd2 = fd) :
    MapsConsistent ⟨updI ctx.fd_map fd none,
      updN ctx.event_to_fd_map t none,
      updI ctx.poll_mask_map fd none, p⟩ := by
  intro fd2 t2 h2
  simp only [updI] at h2
  by_cases hx : fd2 = fd
  · rw [if_pos hx] at h2
    exact Option.noConfusion h2
  · rw [if_neg hx] at h2
    have htne : t2 ≠ t := by
      intro he
      exact hx (hT fd2 (he ▸ h2))
    obtain ⟨hev, m, hm, hm0⟩ := hC fd2 t2 h2
    refine ⟨?_, m, ?_, hm0⟩
    · simp [updN, htne, hev]
    · simp [updI, hx, hm]

/-- Helper: rewriting a poll mask to the non-zero POLLIN preserves map
consistency. -/
lemma mapsConsistent_downgrade (ctx : Ctx) (fd : Int) (p : Nat)
    (hC : MapsConsistent ctx) :
    MapsConsistent { ctx with
      poll_mask_map := updI ctx.poll_mask_map fd (some POLLIN),
      pending_submissions := p } := by
  intro fd2 t2 h2
  obtain ⟨hev, m, hm, hm0⟩ := hC fd2 t2 h2
  by_cases hx : fd2 = fd
  · exact ⟨hev, POLLIN, by simp [updI, hx], by decide⟩
  · exact ⟨hev, m, by simp [updI, hx, hm], hm0⟩

/-- Helper: each registration-API call preserves map consistency under the
token discipline of `TokenOKFor`. -/
lemma mapsConsistent_step (dfd : Int) (ctx : Ctx) (op : Op)
    (hC : MapsConsistent ctx) (hT : TokenOKFor ctx op) :
    MapsConsistent (stepOp dfd ctx op) := by
  cases op with
  | register o t fd p =>
    by_cases hnd : dfd < 0
    · simpa only [stepOp, RegisterEvent, if_pos hnd] using hC
    · by_cases hok : (get_sqe_with_retry o.sqe ctx.pending_submissions).ok = false
      · simp only [stepOp, RegisterEvent, if_neg hnd, hok, if_pos]
        exact fun fd2 t2 h2 => hC fd2 t2 h2
      · simp only [stepOp, RegisterEvent, if_neg hnd, hok, if_neg, if_false]
        have := mapsConsistent_insert ctx t fd
          (if p then POLLOUT ||| POLLIN else POLLOUT)
          (maybe_submit o.submit false
            ((get_sqe_with_retry o.sqe ctx.pending_submissions).pending + 1))
          hC hT (by cases p <;> decide)
        simpa using this
  | unregister o t fd p =>
    by_cases hnd : dfd < 0
    · simpa only [stepOp, UnregisterEvent, if_pos hnd] using hC
    · cases p with
      | true =>
        by_cases hok : (get_sqe_with_retry o.sqe ctx.pending_submissions).ok = false
        · simp only [stepOp, UnregisterEvent, if_neg hnd, if_pos, hok]
          exact fun fd2 t2 h2 => hC fd2 t2 h2
        · simp only [stepOp, UnregisterEvent, if_neg hnd, hok]
          have := mapsConsistent_downgrade ctx fd
            (maybe_submit o.submit false
              ((get_sqe_with_retry o.sqe ctx.pending_submissions).pending + 1)) hC
          simpa using this
      | false =>
        have hT2 : ∀ fd2, ctx.fd_map fd2 = some t → fd2 = fd := by
          rcases hT with h | h
          · exact absurd h (by simp)
          · exact h
        by_cases hok : (get_sqe_with_retry o.sqe ctx.pending_submissions).ok = false
        · simp only [stepOp, UnregisterEvent, if_neg hnd, hok]
          exact fun fd2 t2 h2 => hC fd2 t2 h2
        · simp only [stepOp, UnregisterEvent, if_neg hnd, hok]
          have := mapsConsistent_erase ctx t fd
            (maybe_submit o.submit false
              ((get_sqe_with_retry o.sqe ctx.pending_submissions).pending + 1))
            hC hT2
          simpa using this
  | addConsumer o t fd =>
    by_cases hnd : dfd < 0
    · simpa only [stepOp, AddConsumer, if_pos hnd] using hC
    · by_cases hok : (get_sqe_with_retry o.sqe ctx.pending_submissions).ok = false
      · simp only [stepOp, AddConsumer, if_neg hnd, hok, if_pos]
        exact fun fd2 t2 h2 => hC fd2 t2 h2
      · simp only [stepOp, AddConsumer, if_neg hnd, hok]
        have := mapsConsistent_insert ctx t fd POLLIN
          (maybe_submit o.submit false
            ((get_sqe_with_retry o.sqe ctx.pending_submissions).pending + 1))
          hC hT (by decide)
        simpa using this
  | removeConsumer o fd =>
    by_cases hng : fd < 0 ∨ dfd < 0
    · simpa only [stepOp, RemoveConsumer, if_pos hng] using hC
    · cases hm : ctx.fd_map fd with
      | none => simpa only [stepOp, RemoveConsumer, if_neg hng, hm] using hC
      | some t =>
        have hT2 : ∀ fd2, ctx.fd_map fd2 = some t → fd2 = fd := by
          intro fd2 h2
          obtain ⟨hev2, -⟩ := hC fd2 t h2
          obtain ⟨hev, -⟩ := hC fd t hm
          rw [hev] at hev2
          injection hev2 with h3
          exact h3.symm
        by_cases hok : (get_sqe_with_retry o.sqe ctx.pending_submissions).ok = false
        · simp only [stepOp, RemoveConsumer, if_neg hng, hm, hok]
          exact fun fd2 t2 h2 => hC fd2 t2 h2
        · simp only [stepOp, RemoveConsumer, if_neg hng, hm, hok]
          have := mapsConsistent_erase ctx t fd
            (maybe_submit o.submit false
              ((get_sqe_with_retry o.sqe ctx.pending_submissions).pending + 1))
            hC hT2
          simpa using this

/-- C4 (amended): the initial context is consistent, and any sequence of
registration-API calls that respects the token discipline (a token passed
to an inserting or erasing call is never currently bound to a different fd)
preserves consistency: every fd key of `fd_map` has its current token
mapping back to it in `event_to_fd_map` and a non-zero `poll_mask_map`
entry.  (Stale reverse entries for superseded tokens may remain; they are
outside `MapsConsistent`.) -/
theorem maps_lockstep :
    MapsConsistent Ctx.init ∧
    ∀ (dfd : Int) (ctx : Ctx) (ops : List Op),
      MapsConsistent ctx → OkTrace dfd ctx ops →
      MapsConsistent (runOps dfd ctx ops) := by
  constructor
  · intro fd t h
    exact Option.noConfusion h
  · intro dfd ctx ops
    induction ops generalizing ctx with
    | nil => exact fun h _ => h
    | cons op rest ih =>
      intro hC hT
      exact ih (stepOp dfd ctx op) (mapsConsistent_step dfd ctx op hC hT.1) hT.2

theorem maps_lockstep_witness :
    (runOps 0 Ctx.init
      [Op.register okOracle 1 0 true, Op.removeConsumer okOracle 5]).event_to_fd_map 1
      = some 0 :=
  ((maps_lockstep.2 0 Ctx.init
      [Op.register okOracle 1 0 true, Op.removeConsumer okOracle 5]
      maps_lockstep.1
      ⟨fun fd2 h2 => Option.noConfusion h2, trivial, trivial⟩) 0 1 (by decide)).1

/-- C4 counterexample: two `RegisterEvent` calls on the same fd 0 with
tokens 1 then 2 leave `fd_map[0] = 2` but BOTH reverse entries 1 → 0 and
2 → 0 in `event_to_fd_map`: the superseded token 1 keeps a stale reverse
entry, so there is not exactly one reverse entry per fd key. -/
theorem maps_lockstep_cex :
    (runOps 0 Ctx.init
      [Op.register okOracle 1 0 true, Op.register okOracle 2 0 true]).fd_map 0
      = some 2 ∧
    (runOps 0 Ctx.init
      [Op.register okOracle 1 0 true, Op.register okOracle 2 0 true]).event_to_fd_map 1
      = some 0 ∧
    (runOps 0 Ctx.init
      [Op.register okOracle 1 0 true, Op.register okOracle 2 0 true]).event_to_fd_map 2
      = some 0 ∧ (1 : Nat) ≠ 2 := by
  decide

/-- C6 (amended): on a full ring, `get_sqe_with_retry` flushes pending
submissions; when the flush succeeds the pending counter is reset to zero
and acquisition is retried exactly once, and `RegisterEvent` /
`UnregisterEvent` / `AddConsumer` return ENOMEM iff that retry also fails;
when the flush itself fails, no retry happens, the counter is kept, and
ENOMEM is returned regardless of whether a retry would have succeeded. -/
theorem sqe_acquisition_retry
    (o : OpOracle) (p : Nat) (dfd : Int) (ctx : Ctx) (t : Nat) (fd : Int)
    (b : Bool) (hd : 0 ≤ dfd) (hfull : o.sqe.first = false) :
    (o.sqe.submitOk = true →
      (get_sqe_with_retry o.sqe p).pending = 0 ∧
      ((get_sqe_with_retry o.sqe p).ok = false ↔ o.sqe.retry = false)) ∧
    (o.sqe.submitOk = false →
      (get_sqe_with_retry o.sqe p).ok = false ∧
      (get_sqe_with_retry o.sqe p).pending = p) ∧
    ((RegisterEvent dfd o ctx t fd b).errno = some ENOMEM ↔
      (get_sqe_with_retry o.sqe ctx.pending_submissions).ok = false) ∧
    ((UnregisterEvent dfd o ctx t fd b).errno = some ENOMEM ↔
      (get_sqe_with_retry o.sqe ctx.pending_submissions).ok = false) ∧
    ((AddConsumer dfd o ctx t fd).errno = some ENOMEM ↔
      (get_sqe_with_retry o.sqe ctx.pending_submissions).ok = false) := by
  have hnd : ¬ dfd < 0 := by omega
  refine ⟨?_, ?_, ?_, ?_, ?_⟩
  · intro hs
    simp [get_sqe_with_retry, hfull, hs]
  · intro hs
    simp [get_sqe_with_retry, hfull, hs]
  · by_cases hok : (get_sqe_with_retry o.sqe ctx.pending_submissions).ok = false <;>
      simp [RegisterEvent, hnd, hok]
  · by_cases hok : (get_sqe_with_retry o.sqe ctx.pending_submissions).ok = false <;>
      cases b <;> simp [UnregisterEvent, hnd, hok]
  · by_cases hok : (get_sqe_with_retry o.sqe ctx.pending_submissions).ok = false <;>
      simp [AddConsumer, hnd, hok]

theorem sqe_acquisition_retry_witness :
    (RegisterEvent 0 noSqeOracle Ctx.init 1 0 true).errno = some ENOMEM :=
  ((sqe_acquisition_retry noSqeOracle 3 0 Ctx.init 1 0 true (by decide)
      (by decide)).2.2.1).mpr (by decide)

/-- C6 counterexample: with the ring full and the flushing submit failing
(`first = false`, `submitOk = false`), `RegisterEvent` returns -1/ENOMEM
although a retry would have yielded an SQE (`retry = true`), and the
pending counter is NOT reset to zero (it stays 3) — contradicting the
claim that the counter is always reset, the acquisition retried once, and
ENOMEM returned iff that single retry fails. -/
theorem sqe_acquisition_retry_cex :
    (RegisterEvent 0 failSubmitOracle ctxPending3 1 0 true).ret = -1 ∧
    (RegisterEvent 0 failSubmitOracle ctxPending3 1 0 true).errno = some ENOMEM ∧
    (RegisterEvent 0 failSubmitOracle ctxPending3 1 0 true).ctx.pending_submissions
      = 3 ∧
    failSubmitOracle.sqe.first = false ∧ failSubmitOracle.sqe.retry = true := by
  decide

/-- Helper: erasing right after inserting at an initially absent key gives
back the original fd-keyed map. -/
lemma updI_insert_erase (m : Int → Option Nat) (k : Int) (v : Option Nat)
    (h : m k = none) : updI (updI m k v) k none = m := by
  funext x
  by_cases hx : x = k
  · simp [updI, hx, h]
  · simp [updI, hx]

/-- Helper: erasing right after inserting at an initially absent key gives
back the original token-keyed map. -/
lemma updN_insert_erase (m : Nat → Option Int) (k : Nat) (v : Option Int)
    (h : m k = none) : updN (updN m k v) k none = m := by
  funext x
  by_cases hx : x = k
  · simp [updN, hx, h]
  · simp [updN, hx]

/-- C8 (amended): for an fd absent from all three maps and a token with no
stale reverse entry, `AddConsumer(t, fd)` followed by `RemoveConsumer(fd)`
restores all three maps to their prior values, provided the
`RemoveConsumer` call can acquire an SQE (the pending counter may differ). -/
theorem addConsumer_removeConsumer_roundtrip
    (dfd : Int) (o1 o2 : OpOracle) (ctx : Ctx) (t : Nat) (fd : Int)
    (hd : 0 ≤ dfd) (hfd : 0 ≤ fd)
    (h1 : ctx.fd_map fd = none) (h2 : ctx.event_to_fd_map t = none)
    (h3 : ctx.poll_mask_map fd = none)
    (hsqe : (get_sqe_with_retry o2.sqe
      ((AddConsumer dfd o1 ctx t fd).ctx).pending_submissions).ok = true) :
    ((RemoveConsumer dfd o2 (AddConsumer dfd o1 ctx t fd).ctx fd).ctx).fd_map
      = ctx.fd_map ∧
    ((RemoveConsumer dfd o2 (AddConsumer dfd o1 ctx t fd).ctx fd).ctx).event_to_fd_map
      = ctx.event_to_fd_map ∧
    ((RemoveConsumer dfd o2 (AddConsumer dfd o1 ctx t fd).ctx fd).ctx).poll_mask_map
      = ctx.poll_mask_map := by
  have hnd : ¬ dfd < 0 := by omega
  have hng : ¬ (fd < 0 ∨ dfd < 0) := by omega
  by_cases hok : (get_sqe_with_retry o1.sqe ctx.pending_submissions).ok = false
  · have ha : (AddConsumer dfd o1 ctx t fd).ctx =
        { ctx with pending_submissions :=
            (get_sqe_with_retry o1.sqe ctx.pending_submissions).pending } := by
      simp [AddConsumer, hnd, hok]
    rw [ha]
    simp [RemoveConsumer, hng, h1]
  · have ha : (AddConsumer dfd o1 ctx t fd).ctx =
        ⟨updI ctx.fd_map fd (some t),
         updN ctx.event_to_fd_map t (some fd),
         updI ctx.poll_mask_map fd (some POLLIN),
         maybe_submit o1.submit false
           ((get_sqe_with_retry o1.sqe ctx.pending_submissions).pending + 1)⟩ := by
      simp [AddConsumer, hnd, hok]
    rw [ha] at hsqe ⊢
    have hfind : updI ctx.fd_map fd (some t) fd = some t := by simp [updI]
    simp only [RemoveConsumer, if_neg hng, hfind, hsqe]
    refine ⟨?_, ?_, ?_⟩
    · exact updI_insert_erase ctx.fd_map fd (some t) h1
    · exact updN_insert_erase ctx.event_to_fd_map t (some fd) h2
    · exact updI_insert_erase ctx.poll_mask_map fd (some POLLIN) h3

theorem addConsumer_removeConsumer_roundtrip_witness :
    ((RemoveConsumer 0 okOracle (AddConsumer 0 okOracle Ctx.init 1 0).ctx 0).ctx).fd_map
      = Ctx.init.fd_map ∧
    ((RemoveConsumer 0 okOracle (AddConsumer 0 okOracle Ctx.init 1 0).ctx 0).ctx).event_to_fd_map
      = Ctx.init.event_to_fd_map ∧
    ((RemoveConsumer 0 okOracle (AddConsumer 0 okOracle Ctx.init 1 0).ctx 0).ctx).poll_mask_map
      = Ctx.init.poll_mask_map :=
  addConsumer_removeConsumer_roundtrip 0 okOracle okOracle Ctx.init 1 0
    (by decide) (by decide) rfl rfl rfl (by decide)

/-- C8 counterexample: starting from the empty state, `AddConsumer(1, 0)`
succeeds, but `RemoveConsumer(0)` under persistent SQE exhaustion returns
-1 and does NOT erase the maps, so the pair leaves `fd_map[0] = some 1`
while it was `none` before — the map state is not restored. -/
theorem addConsumer_removeConsumer_cex :
    Ctx.init.fd_map 0 = none ∧
    (AddConsumer 0 okOracle Ctx.init 1 0).ret = 0 ∧
    (RemoveConsumer 0 noSqeOracle (AddConsumer 0 okOracle Ctx.init 1 0).ctx 0).ret
      = -1 ∧
    ((RemoveConsumer 0 noSqeOracle
        (AddConsumer 0 okOracle Ctx.init 1 0).ctx 0).ctx).fd_map 0 = some 1 := by
  decide

/-- Members of `EventDispatcher` that the constructor's init list does NOT
initialize (they stay indeterminate until assigned in the body): the
`_io_uring_ctx` pointer and the two `_wakeup_fds` pipe fds. -/
inductive Member where
  | ioUringCtx
  | wakeupFd0
  | wakeupFd1
deriving DecidableEq

/-- Assignment status of the dispatcher members after the constructor body
(lines 73-114): `event_dispatcher_fd` is set to -1 in the init list;
`ctxAssigned` / `wakeupAssigned` record whether the body reached the
statements assigning `_io_uring_ctx` (line 102) and `_wakeup_fds`
(lines 104-105). -/
structure CtorState where
  event_dispatcher_fd : Int
  ctxAssigned : Bool
  wakeupAssigned : Bool

/-- Embedding of the constructor's control flow: the availability probe
(line 80), the context allocation (lines 85-89) and the ring init
(lines 93-98) each abort with an early return BEFORE `_io_uring_ctx` and
`_wakeup_fds` are assigned; only when all three succeed are those members
written. -/
def ctorRun (probeOk allocOk ringOk : Bool) (ringFd : Int) : CtorState :=
  if probeOk = false then ⟨-1, false, false⟩
  else if allocOk = false then ⟨-1, false, false⟩
  else if ringOk = false then ⟨-1, false, false⟩
  else ⟨ringFd, true, true⟩

/-- Members read by the guard in `EventDispatcher::Stop` (line 170:
`if (_wakeup_fds[1] >= 0)`). -/
def stopGuardReads : List Member := [Member.wakeupFd1]

/-- Members read by the guards in the destructor (line 120:
`if (_io_uring_ctx)`; line 129: `if (_wakeup_fds[0] > 0)`). -/
def dtorGuardReads : List Member := [Member.ioUringCtx, Member.wakeupFd0]

/-- Whether a member has been assigned by the constructor. -/
def memAssigned (s : CtorState) : Member → Bool
  | .ioUringCtx => s.ctxAssigned
  | .wakeupFd0 => s.wakeupAssigned
  | .wakeupFd1 => s.wakeupAssigned

/-- C10: when construction aborts before the ring is created (availability
probe failure, context allocation failure, or ring-init failure), the
members holding the ring context pointer and the wakeup pipe fds are never
assigned, yet every member read by the guard checks of `Stop` and of the
destructor is one of exactly those members — so those guards read
unassigned (indeterminate) values on this path. -/
theorem ctor_abort_guard_reads_unassigned
    (probeOk allocOk ringOk : Bool) (ringFd : Int)
    (hb : probeOk = false ∨ allocOk = false ∨ ringOk = false) :
    ∀ x : Member, x ∈ stopGuardReads ∨ x ∈ dtorGuardReads →
      memAssigned (ctorRun probeOk allocOk ringOk ringFd) x = false := by
  have hs : ctorRun probeOk allocOk ringOk ringFd = ⟨-1, false, false⟩ := by
    rcases hb with h | h | h <;>
      by_cases hp : probeOk = false <;>
        by_cases ha2 : allocOk = false <;>
          simp_all [ctorRun]
  intro x hx
  rw [hs]
  cases x <;> rfl

theorem ctor_abort_guard_reads_unassigned_witness :
    memAssigned (ctorRun false true true 7) Member.ioUringCtx = false ∧
    memAssigned (ctorRun false true true 7) Member.wakeupFd1 = false :=
  ⟨ctor_abort_guard_reads_unassigned false true true 7 (Or.inl rfl)
      Member.ioUringCtx (Or.inr (by decide)),
   ctor_abort_guard_reads_unassigned false true true 7 (Or.inl rfl)
      Member.wakeupFd1 (Or.inl (by decide))⟩
